import Mathlib

/-!
Verification of `setup_remote.py`, a remote-server provisioning script.

The script has two parts:
* `run_command` — executes one remote command, decodes and sanitizes its
  standard output for display (UTF-8 decode with replacement, ASCII filter,
  strip, 50-line truncation), reports standard error on non-zero exit, and
  returns the exit status;
* `main` — argument check, one SSH connection, a fixed sequence of 19
  provisioning commands ending in a health check, with a `finally` that
  closes the session.

Text is modelled as a list of Unicode code points (`Nat`), raw command
output as a list of bytes (`Nat`), and the observable behaviour of
`run_command` / `main` as a list of display/side-effect events plus the
returned status.
-/

set_option linter.unnecessarySeqFocus false
set_option linter.unreachableTactic false
set_option linter.unusedTactic false

namespace SetupRemote

/-- A decoded text: a list of Unicode code points. -/
abbrev Text := List Nat

/-- The character predicate of line 19 of `setup_remote.py`:
`ord(c) < 128 or c in '\n\r\t'`. -/
def keepChar (c : Nat) : Bool := c < 128 || c == 10 || c == 13 || c == 9

/-- `clean_output = ''.join(c for c in output if ord(c) < 128 or c in '\n\r\t')`. -/
def cleanFilter (s : Text) : Text := s.filter keepChar

/-- Python `str.isspace` for a single code point: the Unicode whitespace
set used by `str.strip()` with no arguments. -/
def isPySpace (c : Nat) : Bool :=
  (9 ≤ c && c ≤ 13) || (28 ≤ c && c ≤ 32) || c == 0x85 || c == 0xA0 ||
  c == 0x1680 || (0x2000 ≤ c && c ≤ 0x200A) || c == 0x2028 || c == 0x2029 ||
  c == 0x202F || c == 0x205F || c == 0x3000

/-- Python `s.strip()`: remove leading and trailing whitespace. -/
def pystrip (s : Text) : Text :=
  ((s.dropWhile isPySpace).reverse.dropWhile isPySpace).reverse

/-- Python `lines[-50:]` generalized: the last `n` elements of a list. -/
def lastN (n : Nat) (l : List α) : List α := l.drop (l.length - n)

/-- U+FFFD, the Unicode replacement character produced by
`decode('utf-8', errors='replace')` for undecodable byte sequences. -/
def replCh : Nat := 0xFFFD

/-- Is `b` a UTF-8 continuation byte (`0x80..0xBF`)? -/
def isCont (b : Nat) : Bool := 0x80 ≤ b && b < 0xC0

/-- Valid range of the first continuation byte after a three-byte lead
`b0` (`0xE0` needs `0xA0..0xBF`, `0xED` needs `0x80..0x9F`). -/
def cont1ok3 (b0 b1 : Nat) : Bool :=
  if b0 == 0xE0 then 0xA0 ≤ b1 && b1 < 0xC0
  else if b0 == 0xED then 0x80 ≤ b1 && b1 < 0xA0
  else isCont b1

/-- Valid range of the first continuation byte after a four-byte lead
`b0` (`0xF0` needs `0x90..0xBF`, `0xF4` needs `0x80..0x8F`). -/
def cont1ok4 (b0 b1 : Nat) : Bool :=
  if b0 == 0xF0 then 0x90 ≤ b1 && b1 < 0xC0
  else if b0 == 0xF4 then 0x80 ≤ b1 && b1 < 0x90
  else isCont b1

/-- One step of the UTF-8 decoder with replacement: given the current
byte `b` and the remaining bytes `bs`, produce the emitted code points
and the bytes left to decode.  An invalid sequence emits `replCh` for
its maximal valid subpart, as CPython's `errors='replace'` does. -/
def decodeStep (b : Nat) (bs : List Nat) : List Nat × List Nat :=
  if b < 0x80 then ([b], bs)
  else if b < 0xC2 then ([replCh], bs)
  else if b < 0xE0 then
    match bs with
    | [] => ([replCh], [])
    | b1 :: rest =>
      if isCont b1 then ([(b % 0x20) * 0x40 + b1 % 0x40], rest)
      else ([replCh], b1 :: rest)
  else if b < 0xF0 then
    match bs with
    | [] => ([replCh], [])
    | b1 :: rest =>
      if cont1ok3 b b1 then
        match rest with
        | [] => ([replCh], [])
        | b2 :: rest2 =>
          if isCont b2 then
            ([(b % 0x10) * 0x1000 + (b1 % 0x40) * 0x40 + b2 % 0x40], rest2)
          else ([replCh], b2 :: rest2)
      else ([replCh], b1 :: rest)
  else if b < 0xF5 then
    match bs with
    | [] => ([replCh], [])
    | b1 :: rest =>
      if cont1ok4 b b1 then
        match rest with
        | [] => ([replCh], [])
        | b2 :: rest2 =>
          if isCont b2 then
            match rest2 with
            | [] => ([replCh], [])
            | b3 :: rest3 =>
              if isCont b3 then
                ([(b % 8) * 0x40000 + (b1 % 0x40) * 0x1000 +
                  (b2 % 0x40) * 0x40 + b3 % 0x40], rest3)
              else ([replCh], b3 :: rest3)
          else ([replCh], b2 :: rest2)
      else ([replCh], b1 :: rest)
  else ([replCh], bs)

theorem decodeStep_rest_length (b : Nat) (bs : List Nat) :
    (decodeStep b bs).2.length ≤ bs.length := by
  rcases bs with _ | ⟨b1, bs⟩
  · simp only [decodeStep]
    split_ifs <;> simp
  rcases bs with _ | ⟨b2, bs⟩
  · simp only [decodeStep]
    split_ifs <;> simp
  rcases bs with _ | ⟨b3, bs⟩
  · simp only [decodeStep]
    split_ifs <;> simp
  · simp only [decodeStep]
    split_ifs <;> simp <;> omega

/-- `output = stdout.read().decode('utf-8', errors='replace')`:
decode a byte sequence to code points, undecodable sequences becoming
`replCh`. -/
def decodeUtf8Replace (l : List Nat) : List Nat :=
  match l with
  | [] => []
  | b :: bs => (decodeStep b bs).1 ++ decodeUtf8Replace (decodeStep b bs).2
termination_by l.length
decreasing_by
  simp only [List.length_cons, Nat.lt_succ_iff]
  apply decodeStep_rest_length

/-- A Unicode scalar value: a code point below `0x110000` and outside
the surrogate range `0xD800..0xDFFF`.  Exactly these have a UTF-8
encoding. -/
def isScalar (c : Nat) : Bool := c < 0xD800 || (0xE000 ≤ c && c < 0x110000)

/-- The standard UTF-8 encoding of one scalar value. -/
def encodeChar (c : Nat) : List Nat :=
  if c < 0x80 then [c]
  else if c < 0x800 then [0xC0 + c / 0x40, 0x80 + c % 0x40]
  else if c < 0x10000 then
    [0xE0 + c / 0x1000, 0x80 + (c / 0x40) % 0x40, 0x80 + c % 0x40]
  else
    [0xF0 + c / 0x40000, 0x80 + (c / 0x1000) % 0x40,
     0x80 + (c / 0x40) % 0x40, 0x80 + c % 0x40]

/-- The UTF-8 encoding of a sequence of scalar values.  A byte list is
decodable exactly when it equals `encodeUtf8 cs` for some list `cs` of
scalar values; an output "contains undecodable byte sequences" when it
is not of that form. -/
def encodeUtf8 (cs : List Nat) : List Nat := (cs.map encodeChar).flatten

/-! ### The `run_command` helper (lines 11-37 of `setup_remote.py`) -/

/-- One item printed by `run_command`:
* `banner cmd` — `print(f"\n>>> \x7bcommand\x7d")`;
* `trunc n` — `print(f"... [\x7bn\x7d lines truncated] ...")`;
* `body s` — `print('\n'.join(lines))`;
* `encodingError` — `print(f"[Output encoding error: \x7be\x7d]")`;
* `errOut s` — `print(f"Error: \x7berror\x7d")`. -/
inductive OutLine where
  | banner (cmd : String)
  | trunc (n : Nat)
  | body (s : Text)
  | encodingError
  | errOut (s : Text)
  deriving DecidableEq, Repr

/-- What one remote command execution yields to `run_command`: the exit
status from `recv_exit_status`, the raw bytes of the two streams, and
whether reading each stream succeeds (a failed `read()` raises and lands
in the corresponding `except` clause). -/
structure CmdResult where
  exitStatus : Int
  stdoutBytes : List Nat
  stdoutReadOk : Bool
  stderrBytes : List Nat
  stderrReadOk : Bool

/-- Line 21: `lines = clean_output.strip().split('\n')`. -/
def displayLines (output : Text) : List (List Nat) :=
  (pystrip (cleanFilter output)).splitOn 10

/-- Lines 19-25 of `setup_remote.py`: filter the decoded output, strip
it, and if non-empty split it into lines, truncating to the last 50
with a truncation message when there are more than 50. -/
def stdoutBlock (output : Text) : List OutLine :=
  if pystrip (cleanFilter output) ≠ [] then
    let lines := displayLines output
    if lines.length > 50 then
      [.trunc (lines.length - 50), .body (List.intercalate [10] (lastN 50 lines))]
    else
      [.body (List.intercalate [10] lines)]
  else []

/-- `run_command(ssh, command, timeout)` as a function from the
command's results to the list of printed items and the returned exit
status. -/
def run_command (cmd : String) (r : CmdResult) : List OutLine × Int :=
  let outPart :=
    if r.stdoutReadOk then stdoutBlock (decodeUtf8Replace r.stdoutBytes)
    else [.encodingError]
  let errPart :=
    if r.exitStatus ≠ 0 then
      if r.stderrReadOk then
        let error := decodeUtf8Replace r.stderrBytes
        if pystrip error ≠ [] then [.errOut error] else []
      else []
    else []
  ([.banner cmd] ++ outPart ++ errPart, r.exitStatus)

/-! ### The `main` driver (lines 39-113 of `setup_remote.py`) -/

/-- An observable event of `main`: a print to stdout, the SSH connect
attempt, a dispatch of one command through `run_command`, the printed
error diagnostic of an `except` clause, and `ssh.close()`. -/
inductive Ev where
  | printed (s : String)
  | connectAttempt
  | dispatched (cmd : String)
  | printedError
  | closed
  deriving DecidableEq, Repr

def usageLine1 : String :=
  "Usage: python setup_remote.py <host> <user> <password> <github_repo_url>"

def usageLine2 : String :=
  "Example: python setup_remote.py 194.163.144.206 root mypassword https://github.com/user/repo.git"

/-- Line 86: the clone command, parametrized by `GITHUB_REPO`. -/
def cloneCmd (repo : String) : String :=
  "rm -rf /opt/claude-dev-hub/app && git clone " ++ repo ++
    " /opt/claude-dev-hub/app 2>&1"

/-- Line 101: the health-check request. -/
def healthCmd : String := "curl -s http://localhost:3001/api/health"

/-- The 19 commands dispatched through `run_command` by `main`, in
source order (lines 63-101). -/
def provisioningCommands (repo : String) : List String :=
  [ "apt update && DEBIAN_FRONTEND=noninteractive apt upgrade -y 2>&1 | tail -20",
    "curl -fsSL https://deb.nodesource.com/setup_20.x | bash - 2>&1 | tail -5",
    "apt install -y nodejs 2>&1 | tail -5",
    "apt install -y build-essential python3 2>&1 | tail -5",
    "apt install -y git 2>&1 | tail -3",
    "npm install -g pm2 2>&1 | tail -5",
    "npm install -g @anthropic-ai/claude-code 2>&1 | tail -5",
    "apt install -y nginx 2>&1 | tail -5",
    "mkdir -p /opt/claude-dev-hub/projects /opt/claude-dev-hub/data",
    cloneCmd repo,
    "cd /opt/claude-dev-hub/app && npm install 2>&1 | tail -10",
    "cd /opt/claude-dev-hub/app && npm run build 2>&1 | tail -10",
    "cp /opt/claude-dev-hub/app/nginx.conf /etc/nginx/sites-available/claude-dev-hub",
    "ln -sf /etc/nginx/sites-available/claude-dev-hub /etc/nginx/sites-enabled/",
    "rm -f /etc/nginx/sites-enabled/default",
    "nginx -t && systemctl restart nginx",
    "cd /opt/claude-dev-hub/app && pm2 delete claude-dev-hub 2>/dev/null; pm2 start ecosystem.config.js 2>&1 | tail -5",
    "pm2 save",
    healthCmd ]

/-- The environment a run of `main` faces: whether `ssh.connect`
succeeds, the index of the first provisioning command whose execution
raises an exception (`none` when none does), and the exit status each
command would report.  The statuses are recorded because `run_command`
returns them, but `main` discards the return value, so they never
influence control flow. -/
structure MainEnv where
  connectOk : Bool
  raiseAt : Option Nat
  statuses : Nat → Int

/-- `main()` as a function from `sys.argv` (program name included, as
in Python) and the environment to the trace of events and the process
exit status.  Mirrors lines 40-113: the argument-count guard, the
connect inside `try`, the 19 sequential dispatches, the `except` clause
printing a diagnostic and exiting 1, and the `finally` closing the
session. -/
def mainRun (argv : List String) (env : MainEnv) : List Ev × Nat :=
  if argv.length < 5 then
    ([.printed usageLine1, .printed usageLine2], 1)
  else
    let repo := argv[4]?.getD ""
    let cmds := provisioningCommands repo
    if env.connectOk then
      match env.raiseAt with
      | some i =>
        if i < cmds.length then
          ([.connectAttempt] ++ (cmds.take (i + 1)).map .dispatched ++
            [.printedError, .closed], 1)
        else
          ([.connectAttempt] ++ cmds.map .dispatched ++ [.closed], 0)
      | none =>
        ([.connectAttempt] ++ cmds.map .dispatched ++ [.closed], 0)
    else
      ([.connectAttempt, .printedError, .closed], 1)

/-- The commands dispatched in a trace, in order. -/
def dispatchedCmds (t : List Ev) : List String :=
  t.filterMap fun e =>
    match e with
    | .dispatched c => some c
    | _ => none

/-- The character filter as the spec words it: printable ASCII
(`0x20..0x7E`) plus newline, carriage return and tab, everything else
removed.  Stated for comparison with `keepChar`, the filter the code
actually applies. -/
def specKeepChar (c : Nat) : Bool :=
  (32 ≤ c && c ≤ 126) || c == 10 || c == 13 || c == 9

/-- The spec-worded variant of `cleanFilter`. -/
def specCleanFilter (s : Text) : Text := s.filter specKeepChar

/-! ### Helper lemmas -/

theorem mem_splitOnP_no_sep {α : Type} (p : α → Bool) (xs : List α) :
    ∀ l ∈ xs.splitOnP p, ∀ a ∈ l, ¬ p a := by
  induction xs with
  | nil =>
    intro l hl
    simp only [List.splitOnP_nil, List.mem_singleton] at hl
    subst hl
    simp
  | cons hd tl ih =>
    intro l hl
    rw [List.splitOnP_cons] at hl
    by_cases h : p hd = true
    · rw [if_pos h] at hl
      rcases List.mem_cons.mp hl with rfl | hl
      · simp
      · exact ih l hl
    · rw [if_neg h] at hl
      rcases h' : tl.splitOnP p with _ | ⟨h0, t0⟩
      · exact absurd h' (List.splitOnP_ne_nil p tl)
      · rw [h'] at hl
        simp only [List.modifyHead] at hl
        rcases List.mem_cons.mp hl with rfl | hl
        · intro a ha
          rcases List.mem_cons.mp ha with rfl | ha
          · exact h
          · exact ih h0 (h' ▸ List.mem_cons_self h0 t0) a ha
        · exact ih l (h' ▸ List.mem_cons_of_mem h0 hl)

theorem splitOn_sep_not_mem {α : Type} [DecidableEq α] (x : α) (xs : List α) :
    ∀ l ∈ xs.splitOn x, x ∉ l := by
  intro l hl hx
  have := mem_splitOnP_no_sep (· == x) xs l (by simpa [List.splitOn] using hl) x hx
  simp at this

/-- Every decoding step either emits exactly one replacement character
for the maximal invalid subpart, or decodes one valid UTF-8 sequence:
it emits a single scalar value whose standard encoding is exactly the
bytes the step consumed. -/
theorem decodeStep_sound (b : Nat) (bs : List Nat) :
    (decodeStep b bs).1 = [replCh] ∨
    ∃ c, (decodeStep b bs).1 = [c] ∧ isScalar c = true ∧
      encodeChar c ++ (decodeStep b bs).2 = b :: bs := by
  unfold decodeStep
  by_cases h1 : b < 0x80
  · rw [if_pos h1]
    refine Or.inr ⟨b, rfl, ?_, ?_⟩
    · simp only [isScalar, Bool.or_eq_true, decide_eq_true_eq]
      left
      omega
    · rw [encodeChar, if_pos h1]
      rfl
  rw [if_neg h1]
  by_cases h2 : b < 0xC2
  · rw [if_pos h2]
    exact Or.inl rfl
  rw [if_neg h2]
  by_cases h3 : b < 0xE0
  · rw [if_pos h3]
    rcases bs with _ | ⟨b1, rest⟩
    · exact Or.inl rfl
    dsimp only
    by_cases hc : isCont b1 = true
    · rw [if_pos hc]
      have hb1 : 0x80 ≤ b1 ∧ b1 < 0xC0 := by simpa [isCont] using hc
      refine Or.inr ⟨_, rfl, ?_, ?_⟩
      · simp only [isScalar, Bool.or_eq_true, Bool.and_eq_true,
          decide_eq_true_eq]
        omega
      · rw [encodeChar, if_neg (by omega), if_pos (by omega)]
        simp only [List.cons_append, List.nil_append, List.cons.injEq, and_true]
        omega
    · rw [if_neg hc]
      exact Or.inl rfl
  rw [if_neg h3]
  by_cases h4 : b < 0xF0
  · rw [if_pos h4]
    rcases bs with _ | ⟨b1, rest⟩
    · exact Or.inl rfl
    dsimp only
    by_cases hc1 : cont1ok3 b b1 = true
    · rw [if_pos hc1]
      rcases rest with _ | ⟨b2, rest2⟩
      · exact Or.inl rfl
      dsimp only
      by_cases hc2 : isCont b2 = true
      · rw [if_pos hc2]
        have hb2 : 0x80 ≤ b2 ∧ b2 < 0xC0 := by simpa [isCont] using hc2
        have hb1 : (b = 0xE0 ∧ 0xA0 ≤ b1 ∧ b1 < 0xC0) ∨
            (b = 0xED ∧ 0x80 ≤ b1 ∧ b1 < 0xA0) ∨
            (b ≠ 0xE0 ∧ b ≠ 0xED ∧ 0x80 ≤ b1 ∧ b1 < 0xC0) := by
          simp only [cont1ok3, isCont] at hc1
          split_ifs at hc1 with he1 he2
          · exact Or.inl ⟨by simpa using he1, by simpa using hc1⟩
          · exact Or.inr (Or.inl ⟨by simpa using he2, by simpa using hc1⟩)
          · exact Or.inr (Or.inr ⟨by simpa using he1, by simpa using he2,
              by simpa using hc1⟩)
        refine Or.inr ⟨_, rfl, ?_, ?_⟩
        · simp only [isScalar, Bool.or_eq_true, Bool.and_eq_true,
            decide_eq_true_eq]
          omega
        · rw [encodeChar, if_neg (by omega), if_neg (by omega),
            if_pos (by omega)]
          simp only [List.cons_append, List.nil_append, List.cons.injEq,
            and_true]
          omega
      · rw [if_neg hc2]
        exact Or.inl rfl
    · rw [if_neg hc1]
      exact Or.inl rfl
  rw [if_neg h4]
  by_cases h5 : b < 0xF5
  · rw [if_pos h5]
    rcases bs with _ | ⟨b1, rest⟩
    · exact Or.inl rfl
    dsimp only
    by_cases hc1 : cont1ok4 b b1 = true
    · rw [if_pos hc1]
      rcases rest with _ | ⟨b2, rest2⟩
      · exact Or.inl rfl
      dsimp only
      by_cases hc2 : isCont b2 = true
      · rw [if_pos hc2]
        rcases rest2 with _ | ⟨b3, rest3⟩
        · exact Or.inl rfl
        dsimp only
        by_cases hc3 : isCont b3 = true
        · rw [if_pos hc3]
          have hb2 : 0x80 ≤ b2 ∧ b2 < 0xC0 := by simpa [isCont] using hc2
          have hb3 : 0x80 ≤ b3 ∧ b3 < 0xC0 := by simpa [isCont] using hc3
          have hb1 : (b = 0xF0 ∧ 0x90 ≤ b1 ∧ b1 < 0xC0) ∨
              (b = 0xF4 ∧ 0x80 ≤ b1 ∧ b1 < 0x90) ∨
              (b ≠ 0xF0 ∧ b ≠ 0xF4 ∧ 0x80 ≤ b1 ∧ b1 < 0xC0) := by
            simp only [cont1ok4, isCont] at hc1
            split_ifs at hc1 with he1 he2
            · exact Or.inl ⟨by simpa using he1, by simpa using hc1⟩
            · exact Or.inr (Or.inl ⟨by simpa using he2, by simpa using hc1⟩)
            · exact Or.inr (Or.inr ⟨by simpa using he1, by simpa using he2,
                by simpa using hc1⟩)
          refine Or.inr ⟨_, rfl, ?_, ?_⟩
          · simp only [isScalar, Bool.or_eq_true, Bool.and_eq_true,
              decide_eq_true_eq]
            omega
          · rw [encodeChar, if_neg (by omega), if_neg (by omega),
              if_neg (by omega)]
            simp only [List.cons_append, List.nil_append, List.cons.injEq,
              and_true]
            omega
        · rw [if_neg hc3]
          exact Or.inl rfl
      · rw [if_neg hc2]
        exact Or.inl rfl
    · rw [if_neg hc1]
      exact Or.inl rfl
  · rw [if_neg h5]
    exact Or.inl rfl

/-- A decode without any replacement character re-encodes to exactly
the input bytes, and yields only scalar values: replacement-free
inputs are precisely the valid UTF-8 encodings. -/
theorem decode_no_repl_valid (bs : List Nat) :
    replCh ∉ decodeUtf8Replace bs →
      encodeUtf8 (decodeUtf8Replace bs) = bs ∧
      ∀ c ∈ decodeUtf8Replace bs, isScalar c = true := by
  induction bs using decodeUtf8Replace.induct with
  | case1 =>
    intro h
    rw [decodeUtf8Replace]
    exact ⟨rfl, by simp⟩
  | case2 b bs ih =>
    intro h
    rw [decodeUtf8Replace] at h ⊢
    rw [List.mem_append] at h
    push_neg at h
    obtain ⟨h1, h2⟩ := h
    rcases decodeStep_sound b bs with hstep | ⟨c, he1, hsc, henc⟩
    · rw [hstep] at h1
      exact absurd (List.mem_singleton_self replCh) h1
    · obtain ⟨ihe, ihs⟩ := ih h2
      rw [he1]
      constructor
      · have hstepenc : encodeUtf8 (c :: decodeUtf8Replace (decodeStep b bs).2) =
            encodeChar c ++ encodeUtf8 (decodeUtf8Replace (decodeStep b bs).2) :=
          rfl
        rw [List.singleton_append, hstepenc, ihe, henc]
      · intro x hx
        rw [List.singleton_append, List.mem_cons] at hx
        rcases hx with rfl | hx
        · exact hsc
        · exact ihs x hx

theorem stdoutBlock_no_errOut (output e : Text) :
    OutLine.errOut e ∉ stdoutBlock output := by
  unfold stdoutBlock
  dsimp only
  split_ifs <;> simp

theorem errOut_mem_run_command (cmd : String) (r : CmdResult) (e : Text) :
    OutLine.errOut e ∈ (run_command cmd r).1 ↔
      r.exitStatus ≠ 0 ∧ r.stderrReadOk = true ∧
        pystrip (decodeUtf8Replace r.stderrBytes) ≠ [] ∧
        e = decodeUtf8Replace r.stderrBytes := by
  unfold run_command
  by_cases hok : r.stdoutReadOk = true <;>
  by_cases hz : r.exitStatus = 0 <;>
  by_cases hro : r.stderrReadOk = true <;>
  by_cases hs : pystrip (decodeUtf8Replace r.stderrBytes) = [] <;>
    simp [hok, hz, hro, hs, Bool.not_eq_true, stdoutBlock_no_errOut]

/-! ### The claims -/

/-- A sample decoded output of 51 one-character lines. -/
def sample51 : Text := List.intercalate [10] (List.replicate 51 [97])

/-- C1: for every command whose filtered, stripped output has strictly
more than 50 lines, `run_command` displays exactly the last 50 lines of
that output (the printed body splits back into exactly those 50 lines),
preceded by a truncation message whose count equals the total number of
lines minus 50. -/
theorem trunc_shows_last_50 (output : Text)
    (h : 50 < (displayLines output).length) :
    stdoutBlock output =
      [.trunc ((displayLines output).length - 50),
       .body (List.intercalate [10] (lastN 50 (displayLines output)))] ∧
    (List.intercalate [10] (lastN 50 (displayLines output))).splitOn 10 =
      lastN 50 (displayLines output) ∧
    (lastN 50 (displayLines output)).length = 50 := by
  have hlen : (lastN 50 (displayLines output)).length = 50 := by
    simp only [lastN, List.length_drop]
    omega
  have hstrip : pystrip (cleanFilter output) ≠ [] := by
    intro he
    rw [displayLines, he] at h
    simp at h
  refine ⟨?_, ?_, hlen⟩
  · rw [stdoutBlock, if_pos hstrip]
    dsimp only
    rw [if_pos h]
  · apply List.splitOn_intercalate
    · intro l hl
      simp only [lastN, displayLines] at hl
      exact splitOn_sep_not_mem 10 (pystrip (cleanFilter output)) l
        (List.mem_of_mem_drop hl)
    · intro he
      rw [he] at hlen
      simp at hlen

theorem trunc_shows_last_50_witness :
    50 < (displayLines sample51).length ∧
    (stdoutBlock sample51 =
      [.trunc ((displayLines sample51).length - 50),
       .body (List.intercalate [10] (lastN 50 (displayLines sample51)))] ∧
    (List.intercalate [10] (lastN 50 (displayLines sample51))).splitOn 10 =
      lastN 50 (displayLines sample51) ∧
    (lastN 50 (displayLines sample51)).length = 50) :=
  ⟨by decide, trunc_shows_last_50 sample51 (by decide)⟩

/-- C2, counterexample: the claim says the filter keeps only printable
ASCII plus newline, carriage return and tab, removing all other control
characters; but the code keeps the BEL control character `0x07`
(`ord(c) < 128` is true for it), where the spec-worded filter would
remove it. -/
theorem filter_keeps_control_counterexample :
    cleanFilter [7] = [7] ∧ specCleanFilter [7] = [] := by decide

/-- C2, amended: the filter keeps exactly the characters with code
point below 128 — all of ASCII, control characters included — and
removes every character with code point 128 or above; the
`c in '\n\r\t'` disjunct of line 19 is redundant. -/
theorem cleanFilter_eq_below128 (s : Text) :
    cleanFilter s = s.filter (fun c => decide (c < 128)) := by
  unfold cleanFilter
  apply List.filter_congr
  intro c _
  simp only [keepChar]
  by_cases h : c < 128
  · simp [h]
  · have e10 : c ≠ 10 := by omega
    have e13 : c ≠ 13 := by omega
    have e9 : c ≠ 9 := by omega
    simp [h, e10, e13, e9]

/-- C3: on text consisting only of printable ASCII characters plus
newline, carriage return and tab, the character filter is the
identity. -/
theorem printable_filter_identity (s : Text)
    (h : ∀ c ∈ s, (32 ≤ c ∧ c ≤ 126) ∨ c = 10 ∨ c = 13 ∨ c = 9) :
    cleanFilter s = s := by
  unfold cleanFilter
  apply List.filter_eq_self.mpr
  intro c hc
  rcases h c hc with ⟨h1, h2⟩ | rfl | rfl | rfl <;> simp [keepChar] <;> omega

theorem printable_filter_identity_witness :
    (∀ c ∈ ([104, 10, 9, 32, 126] : Text),
      (32 ≤ c ∧ c ≤ 126) ∨ c = 10 ∨ c = 13 ∨ c = 9) ∧
    cleanFilter [104, 10, 9, 32, 126] = [104, 10, 9, 32, 126] :=
  ⟨by decide, printable_filter_identity [104, 10, 9, 32, 126] (by decide)⟩

/-- C8: `run_command` prints the decoded standard-error text if and
only if the exit status is non-zero, standard error could be read, and
the decoded text is non-empty after stripping; what it prints is the
decoded text itself; and on every path it returns the raw exit status
unchanged. -/
theorem stderr_policy_and_status (cmd : String) (r : CmdResult) :
    (run_command cmd r).2 = r.exitStatus ∧
    ((∃ e, OutLine.errOut e ∈ (run_command cmd r).1) ↔
      r.exitStatus ≠ 0 ∧ r.stderrReadOk = true ∧
        pystrip (decodeUtf8Replace r.stderrBytes) ≠ []) ∧
    (∀ e, OutLine.errOut e ∈ (run_command cmd r).1 →
      e = decodeUtf8Replace r.stderrBytes) := by
  refine ⟨rfl, ⟨?_, ?_⟩, ?_⟩
  · rintro ⟨e, he⟩
    have h := (errOut_mem_run_command cmd r e).mp he
    exact ⟨h.1, h.2.1, h.2.2.1⟩
  · rintro ⟨h1, h2, h3⟩
    exact ⟨_, (errOut_mem_run_command cmd r _).mpr ⟨h1, h2, h3, rfl⟩⟩
  · intro e he
    exact ((errOut_mem_run_command cmd r e).mp he).2.2.2

/-- C9: whenever the command output is not the UTF-8 encoding of any
sequence of Unicode scalar values — that is, it contains an undecodable
byte sequence, be it a lone continuation byte, a truncated sequence, an
overlong encoding, a surrogate encoding or an invalid lead — decoding
puts the replacement character U+FFFD into the decoded text; each
decoding step either decodes one valid sequence to its scalar value
(whose encoding is exactly the consumed bytes) or replaces the
offending maximal subpart with exactly one U+FFFD; and the ASCII
filter removes U+FFFD (its code point is not below 128), so
undecodable bytes leave no trace in the displayed output. -/
theorem undecodable_bytes_no_trace (bs : List Nat)
    (h : ¬ ∃ cs, (∀ c ∈ cs, isScalar c = true) ∧ encodeUtf8 cs = bs) :
    replCh ∈ decodeUtf8Replace bs ∧
    (∀ b rest, (decodeStep b rest).1 = [replCh] ∨
      ∃ c, (decodeStep b rest).1 = [c] ∧ isScalar c = true ∧
        encodeChar c ++ (decodeStep b rest).2 = b :: rest) ∧
    replCh ∉ cleanFilter (decodeUtf8Replace bs) := by
  refine ⟨?_, fun b rest => decodeStep_sound b rest, ?_⟩
  · by_contra hr
    exact h ⟨decodeUtf8Replace bs, (decode_no_repl_valid bs hr).2,
      (decode_no_repl_valid bs hr).1⟩
  · intro hmem
    have hk := List.of_mem_filter hmem
    simp [keepChar, replCh] at hk

/-- The lone continuation byte `0x80` is no UTF-8 encoding of scalar
values: any non-empty encoding starts with the first byte of
`encodeChar c`, which is never in `0x80..0xBF`. -/
theorem cont_byte_not_encoding :
    ¬ ∃ cs, (∀ c ∈ cs, isScalar c = true) ∧ encodeUtf8 cs = [0x80] := by
  rintro ⟨cs, hsc, he⟩
  rcases cs with _ | ⟨c, cs⟩
  · simp [encodeUtf8] at he
  · have hcons : encodeUtf8 (c :: cs) = encodeChar c ++ encodeUtf8 cs := rfl
    rw [hcons, encodeChar] at he
    split_ifs at he <;> simp at he <;> omega

theorem undecodable_bytes_no_trace_witness :
    (¬ ∃ cs, (∀ c ∈ cs, isScalar c = true) ∧ encodeUtf8 cs = [0x80]) ∧
    (replCh ∈ decodeUtf8Replace [0x80] ∧
     (∀ b rest, (decodeStep b rest).1 = [replCh] ∨
       ∃ c, (decodeStep b rest).1 = [c] ∧ isScalar c = true ∧
         encodeChar c ++ (decodeStep b rest).2 = b :: rest) ∧
     replCh ∉ cleanFilter (decodeUtf8Replace [0x80])) :=
  ⟨cont_byte_not_encoding,
   undecodable_bytes_no_trace [0x80] cont_byte_not_encoding⟩

/-- C10: when the decoded, filtered output is empty or whitespace-only,
`run_command` prints no output block at all — no body and no truncation
message — while still printing the command banner and returning the
exit status. -/
theorem empty_output_no_block (cmd : String) (r : CmdResult)
    (hok : r.stdoutReadOk = true)
    (h : pystrip (cleanFilter (decodeUtf8Replace r.stdoutBytes)) = []) :
    (∀ s, OutLine.body s ∉ (run_command cmd r).1) ∧
    (∀ n, OutLine.trunc n ∉ (run_command cmd r).1) ∧
    OutLine.banner cmd ∈ (run_command cmd r).1 ∧
    (run_command cmd r).2 = r.exitStatus := by
  have hblock : stdoutBlock (decodeUtf8Replace r.stdoutBytes) = [] := by
    unfold stdoutBlock
    rw [if_neg]
    simp [h]
  unfold run_command
  refine ⟨?_, ?_, ?_, rfl⟩ <;>
    simp [hok, hblock] <;>
    split_ifs <;> simp

theorem cloneCmd_ne_healthCmd (repo : String) : cloneCmd repo ≠ healthCmd := by
  intro h
  have hl := congrArg String.length h
  rw [cloneCmd, healthCmd, String.length_append, String.length_append] at hl
  have h1 : ("rm -rf /opt/claude-dev-hub/app && git clone " : String).length = 44 :=
    rfl
  have h2 : (" /opt/claude-dev-hub/app 2>&1" : String).length = 29 := rfl
  have h3 : ("curl -s http://localhost:3001/api/health" : String).length = 40 := rfl
  rw [h1, h2, h3] at hl
  omega

theorem dispatchedCmds_map (l : List String) :
    dispatchedCmds (l.map Ev.dispatched) = l := by
  induction l with
  | nil => rfl
  | cons hd tl ih =>
    simp only [List.map_cons, dispatchedCmds, List.filterMap_cons] at ih ⊢
    rw [ih]

theorem dispatchedCmds_append (a b : List Ev) :
    dispatchedCmds (a ++ b) = dispatchedCmds a ++ dispatchedCmds b := by
  simp [dispatchedCmds, List.filterMap_append]

theorem dispatchedCmds_trace (l : List String) :
    dispatchedCmds ([Ev.connectAttempt] ++ l.map Ev.dispatched ++ [Ev.closed]) =
      l := by
  have h1 : dispatchedCmds [Ev.connectAttempt] = [] := rfl
  have h2 : dispatchedCmds [Ev.closed] = [] := rfl
  rw [dispatchedCmds_append, dispatchedCmds_append, dispatchedCmds_map, h1, h2]
  simp

theorem closed_count_map (l : List String) :
    (l.map Ev.dispatched).count Ev.closed = 0 := by
  rw [List.count_eq_zero]
  simp

theorem healthCmd_not_dropLast (repo : String) :
    healthCmd ∉ (provisioningCommands repo).dropLast := by
  intro h
  simp [provisioningCommands, healthCmd] at h
  exact cloneCmd_ne_healthCmd repo h.symm

/-- C4: invoked with fewer than 4 command-line arguments (so `sys.argv`,
which also holds the script name, has fewer than 5 entries), `main`
prints the two usage lines and exits with status 1, attempting no
network connection and dispatching no command. -/
theorem usage_exit_before_connect (argv : List String) (env : MainEnv)
    (h : argv.length < 5) :
    mainRun argv env = ([.printed usageLine1, .printed usageLine2], 1) ∧
    Ev.connectAttempt ∉ (mainRun argv env).1 ∧
    (∀ c, Ev.dispatched c ∉ (mainRun argv env).1) := by
  have he : mainRun argv env = ([.printed usageLine1, .printed usageLine2], 1) := by
    unfold mainRun
    rw [if_pos h]
  refine ⟨he, ?_, ?_⟩ <;> rw [he] <;> simp

theorem usage_exit_before_connect_witness :
    (["setup_remote.py", "1.2.3.4"] : List String).length < 5 ∧
    (mainRun ["setup_remote.py", "1.2.3.4"] ⟨true, none, fun _ => 0⟩ =
        ([.printed usageLine1, .printed usageLine2], 1) ∧
      Ev.connectAttempt ∉
        (mainRun ["setup_remote.py", "1.2.3.4"] ⟨true, none, fun _ => 0⟩).1 ∧
      (∀ c, Ev.dispatched c ∉
        (mainRun ["setup_remote.py", "1.2.3.4"] ⟨true, none, fun _ => 0⟩).1)) :=
  ⟨by decide,
   usage_exit_before_connect ["setup_remote.py", "1.2.3.4"]
     ⟨true, none, fun _ => 0⟩ (by decide)⟩

/-- C5: when the SSH connect fails, `main` prints a diagnostic and
exits with status 1, dispatching no provisioning command through
`run_command` (the session is still closed by the `finally`). -/
theorem connect_failure_aborts (argv : List String) (env : MainEnv)
    (hlen : 5 ≤ argv.length) (hc : env.connectOk = false) :
    (mainRun argv env).2 = 1 ∧
    (∀ c, Ev.dispatched c ∉ (mainRun argv env).1) ∧
    Ev.printedError ∈ (mainRun argv env).1 := by
  have he : mainRun argv env =
      ([.connectAttempt, .printedError, .closed], 1) := by
    simp [mainRun, Nat.not_lt.mpr hlen, hc]
  refine ⟨?_, ?_, ?_⟩ <;> rw [he] <;> simp

theorem connect_failure_aborts_witness :
    (5 ≤ (["setup_remote.py", "1.2.3.4", "root", "pw",
        "https://github.com/u/r.git"] : List String).length ∧
      (⟨false, none, fun _ => 0⟩ : MainEnv).connectOk = false) ∧
    ((mainRun ["setup_remote.py", "1.2.3.4", "root", "pw",
        "https://github.com/u/r.git"] ⟨false, none, fun _ => 0⟩).2 = 1 ∧
      (∀ c, Ev.dispatched c ∉
        (mainRun ["setup_remote.py", "1.2.3.4", "root", "pw",
          "https://github.com/u/r.git"] ⟨false, none, fun _ => 0⟩).1) ∧
      Ev.printedError ∈
        (mainRun ["setup_remote.py", "1.2.3.4", "root", "pw",
          "https://github.com/u/r.git"] ⟨false, none, fun _ => 0⟩).1) :=
  ⟨⟨by decide, rfl⟩,
   connect_failure_aborts
     ["setup_remote.py", "1.2.3.4", "root", "pw", "https://github.com/u/r.git"]
     ⟨false, none, fun _ => 0⟩ (by decide) rfl⟩

/-- C6: on a run where the connect succeeds and no command raises, the
dispatched commands are exactly `provisioningCommands`, in their fixed
source order, for any exit statuses the individual commands report; the
health-check request is the final command and occurs nowhere earlier;
and the process exit status is 0. -/
theorem full_run_order_health_exit0 (argv : List String) (env : MainEnv)
    (hlen : 5 ≤ argv.length) (hc : env.connectOk = true)
    (hr : env.raiseAt = none) :
    dispatchedCmds (mainRun argv env).1 =
      provisioningCommands (argv[4]?.getD "") ∧
    (provisioningCommands (argv[4]?.getD "")).getLast? = some healthCmd ∧
    healthCmd ∉ (provisioningCommands (argv[4]?.getD "")).dropLast ∧
    (mainRun argv env).2 = 0 := by
  have he : mainRun argv env =
      ([.connectAttempt] ++
        (provisioningCommands (argv[4]?.getD "")).map .dispatched ++ [.closed],
       0) := by
    simp [mainRun, Nat.not_lt.mpr hlen, hc, hr]
  refine ⟨?_, rfl, healthCmd_not_dropLast (argv[4]?.getD ""), ?_⟩
  · rw [he]
    exact dispatchedCmds_trace _
  · rw [he]

theorem full_run_order_health_exit0_witness :
    (5 ≤ (["setup_remote.py", "1.2.3.4", "root", "pw",
        "https://github.com/u/r.git"] : List String).length ∧
      (⟨true, none, fun _ => 0⟩ : MainEnv).connectOk = true ∧
      (⟨true, none, fun _ => 0⟩ : MainEnv).raiseAt = none) ∧
    (dispatchedCmds (mainRun ["setup_remote.py", "1.2.3.4", "root", "pw",
        "https://github.com/u/r.git"] ⟨true, none, fun _ => 0⟩).1 =
      provisioningCommands "https://github.com/u/r.git" ∧
      (provisioningCommands "https://github.com/u/r.git").getLast? =
        some healthCmd ∧
      healthCmd ∉ (provisioningCommands "https://github.com/u/r.git").dropLast ∧
      (mainRun ["setup_remote.py", "1.2.3.4", "root", "pw",
        "https://github.com/u/r.git"] ⟨true, none, fun _ => 0⟩).2 = 0) :=
  ⟨⟨by decide, rfl, rfl⟩,
   full_run_order_health_exit0
     ["setup_remote.py", "1.2.3.4", "root", "pw", "https://github.com/u/r.git"]
     ⟨true, none, fun _ => 0⟩ (by decide) rfl rfl⟩

/-- C7: on every run in which the SSH client is created (the argument
check passed), the session close operation appears exactly once in the
trace — whether the connect fails, a provisioning command raises, or
the sequence completes. -/
theorem session_closed_exactly_once (argv : List String) (env : MainEnv)
    (hlen : 5 ≤ argv.length) :
    (mainRun argv env).1.count Ev.closed = 1 := by
  cases hc : env.connectOk
  · have he : mainRun argv env =
        ([.connectAttempt, .printedError, .closed], 1) := by
      simp [mainRun, Nat.not_lt.mpr hlen, hc]
    rw [he]
    rfl
  · rcases hr : env.raiseAt with _ | i
    · have he : mainRun argv env =
          ([.connectAttempt] ++
            (provisioningCommands (argv[4]?.getD "")).map .dispatched ++
            [.closed], 0) := by
        simp [mainRun, Nat.not_lt.mpr hlen, hc, hr]
      rw [he]
      simp only [List.count_append, closed_count_map]
      rfl
    · by_cases hi : i < (provisioningCommands (argv[4]?.getD "")).length
      · have he : mainRun argv env =
            ([.connectAttempt] ++
              ((provisioningCommands (argv[4]?.getD "")).take (i + 1)).map
                .dispatched ++ [.printedError, .closed], 1) := by
          simp [mainRun, Nat.not_lt.mpr hlen, hc, hr, hi]
        rw [he]
        simp only [List.count_append, closed_count_map]
        rfl
      · have he : mainRun argv env =
            ([.connectAttempt] ++
              (provisioningCommands (argv[4]?.getD "")).map .dispatched ++
              [.closed], 0) := by
          simp [mainRun, Nat.not_lt.mpr hlen, hc, hr, hi]
        rw [he]
        simp only [List.count_append, closed_count_map]
        rfl

theorem session_closed_exactly_once_witness :
    5 ≤ (["setup_remote.py", "1.2.3.4", "root", "pw",
        "https://github.com/u/r.git"] : List String).length ∧
    (mainRun ["setup_remote.py", "1.2.3.4", "root", "pw",
        "https://github.com/u/r.git"] ⟨true, some 3, fun _ => 1⟩).1.count
      Ev.closed = 1 :=
  ⟨by decide,
   session_closed_exactly_once
     ["setup_remote.py", "1.2.3.4", "root", "pw", "https://github.com/u/r.git"]
     ⟨true, some 3, fun _ => 1⟩ (by decide)⟩

theorem empty_output_no_block_witness :
    ((⟨0, [32, 10], true, [], true⟩ : CmdResult).stdoutReadOk = true ∧
     pystrip (cleanFilter (decodeUtf8Replace
       (⟨0, [32, 10], true, [], true⟩ : CmdResult).stdoutBytes)) = []) ∧
    ((∀ s, OutLine.body s ∉
        (run_command "pm2 save" ⟨0, [32, 10], true, [], true⟩).1) ∧
     (∀ n, OutLine.trunc n ∉
        (run_command "pm2 save" ⟨0, [32, 10], true, [], true⟩).1) ∧
     OutLine.banner "pm2 save" ∈
        (run_command "pm2 save" ⟨0, [32, 10], true, [], true⟩).1 ∧
     (run_command "pm2 save" ⟨0, [32, 10], true, [], true⟩).2 =
        (⟨0, [32, 10], true, [], true⟩ : CmdResult).exitStatus) :=
  ⟨⟨rfl, by simp [decodeUtf8Replace, decodeStep, pystrip, cleanFilter, keepChar,
      isPySpace]⟩,
   empty_output_no_block "pm2 save" ⟨0, [32, 10], true, [], true⟩ rfl
     (by simp [decodeUtf8Replace, decodeStep, pystrip, cleanFilter, keepChar,
       isPySpace])⟩

end SetupRemote
